import Mathlib

/-!
Shallow embedding of the topic-routing core of the `whatsappDemo` repository:
`router.py` (the `TopicRouter` class: lexical candidate generation and the
`route` decision policy) and `konu_birim.py` (the catalog loading loop of
`load_topics`).

Modelling conventions:
* Python `float` similarity scores and confidences are modelled as `ℚ`.
* The TF-IDF vectorizer and cosine similarity (external `sklearn` calls)
  are modelled as an abstract per-router function `sims : String → List ℚ`
  returning one score per catalog topic, exactly the array that
  `cosine_similarity(..._transform([text]), topic_matrix).ravel()` yields;
  all ordering/selection logic downstream of that array is embedded from
  the source.
* `numpy`'s `argsort` is modelled as a stable ascending index sort
  (insertion sort), matching numpy's behaviour on small arrays; the source
  then reverses it and takes the first `top_k` indices.
* The Gemini client call is modelled by a `GeminiOutcome` argument: either
  the call raises (transport error) or returns a response object carrying
  an optional pre-parsed `RouteResult` (the `.parsed` attribute) and an
  optional raw text.  `pydantic`'s `RouteResult.model_validate_json` is an
  abstract parameter `pj : String → Option RouteResult` (`none` models a
  raised validation error).
* Python exceptions escaping `route` are modelled by `Except PyExc`.
* Python string helpers (`strip`, `isalpha`, `lower`, `str.find`/`rfind`)
  are modelled character-exactly for ASCII plus the Turkish alphabet; the
  NFKC normalisation step of `_clean_text` is modelled as the identity
  (it is the identity on the alphabets exercised here).
-/

namespace WhatsappDemo

/-! ## Python string primitives -/

/-- Model of Python `str.strip()` on the character list: drop leading and
trailing whitespace. -/
def pyStripL (l : List Char) : List Char :=
  ((l.dropWhile Char.isWhitespace).reverse.dropWhile Char.isWhitespace).reverse

/-- Model of Python `str.strip()` on strings. -/
def pyStrip (s : String) : String := String.mk (pyStripL s.data)

/-- The extra letters of the Turkish alphabet beyond ASCII. -/
def turkishLetters : List Char := "çğıöşüÇĞİÖŞÜ".data

/-- Model of Python `str.isalpha` per character, restricted to ASCII plus
the Turkish alphabet (the character sets exercised by this program). -/
def pyIsAlpha (c : Char) : Bool := c.isAlpha || turkishLetters.contains c

/-- The exact vowel string of `TopicRouter.route`
(`"aeiouıİöÖüÜoOeEaAıIuU"` in the source). -/
def routeVowels : List Char := "aeiouıİöÖüÜoOeEaAıIuU".data

/-- `ch in vowels` from the pseudo-word gate of `route`. -/
def isRouteVowel (c : Char) : Bool := routeVowels.contains c

/-- Collapse whitespace: split on whitespace, drop empty fragments, rejoin
with single spaces — the `" ".join(text.strip().split())` idiom. -/
def collapseWs (l : List Char) : List Char :=
  List.intercalate [' '] ((l.splitOnP Char.isWhitespace).filter (· ≠ []))

/-- Model of `_clean_text` from `konu_birim.py`: NFKC-normalise (modelled
as the identity), strip, and collapse internal whitespace. -/
def cleanText (s : String) : String := String.mk (collapseWs s.data)

/-- Model of Python `str.lower` per character for ASCII and Turkish
letters.  Note Python maps `İ` to the two characters `i` + combining dot
above (U+0307). -/
def pyLowerChar (c : Char) : List Char :=
  if c = 'İ' then ['i', '̇']
  else if c = 'Ç' then ['ç']
  else if c = 'Ğ' then ['ğ']
  else if c = 'Ö' then ['ö']
  else if c = 'Ş' then ['ş']
  else if c = 'Ü' then ['ü']
  else [c.toLower]

/-- Model of Python `str.lower`. -/
def pyLower (s : String) : String := String.mk (s.data.flatMap pyLowerChar)

/-- A regex `\w` word character (letter, digit or underscore) over the
alphabets exercised here. -/
def wordChar (c : Char) : Bool := pyIsAlpha c || c.isDigit || c = '_'

/-- Model of `_normalize_match` from `konu_birim.py`: clean, lowercase,
replace every character that is neither a word character nor whitespace by
a space, and collapse whitespace. -/
def normalizeMatch (s : String) : String :=
  let lowered := (cleanText s).data.flatMap pyLowerChar
  let replaced := lowered.map (fun c => if wordChar c || c.isWhitespace then c else ' ')
  String.mk (collapseWs replaced)

/-- Model of Python `str.find(c)`: index of the first occurrence, `none`
for `-1`. -/
def pyFindChar (l : List Char) (c : Char) : Option ℕ := l.findIdx? (· = c)

/-- Model of Python `str.rfind(c)`: index of the last occurrence, `none`
for `-1`. -/
def pyRfindChar (l : List Char) (c : Char) : Option ℕ :=
  match l.reverse.findIdx? (· = c) with
  | some k => some (l.length - 1 - k)
  | none => none

/-- The brace-extraction step of `route`'s parse fallback:
`start = txt.find("{"); end = txt.rfind("}")`; if both exist and
`end > start`, the slice `txt[start : end + 1]`. -/
def braceSub (txt : List Char) : Option (List Char) :=
  match pyFindChar txt '\x7b', pyRfindChar txt '\x7d' with
  | some s, some e => if s < e then some ((txt.drop s).take (e + 1 - s)) else none
  | some _, none => none
  | none, _ => none

/-! ## Stable argsort (model of `numpy.ndarray.argsort`) -/

/-- Insert an index into an already sorted index list, keeping it before
the first index whose key is not smaller (stable insertion). -/
def insertAsc (le : ℕ → ℕ → Bool) (i : ℕ) : List ℕ → List ℕ
  | [] => [i]
  | j :: rest => if le i j then i :: j :: rest else j :: insertAsc le i rest

/-- Stable ascending insertion sort on index lists. -/
def stableSortAsc (le : ℕ → ℕ → Bool) : List ℕ → List ℕ
  | [] => []
  | i :: rest => insertAsc le i (stableSortAsc le rest)

/-- Comparison of two indices by their similarity scores. -/
def simLe (sims : List ℚ) (i j : ℕ) : Bool := decide (sims.getD i 0 ≤ sims.getD j 0)

/-- Model of `sims.argsort()`: the indices `0 .. sims.length - 1` stably
sorted by ascending score. -/
def argsort (sims : List ℚ) : List ℕ :=
  stableSortAsc (simLe sims) (List.range sims.length)

/-! ## Data model (`router.py`) -/

/-- `TopicRow` from `konu_birim.py`. -/
structure TopicRow where
  id : ℤ
  konu : String
  birim : String
  match_text : String
deriving DecidableEq

/-- `Candidate` from `router.py`. -/
structure Candidate where
  id : ℤ
  konu : String
  birim : String
  score : ℚ
deriving DecidableEq

/-- `RouteResult` from `router.py` (the pydantic response schema). -/
structure RouteResult where
  matched : Bool
  topic_id : Option ℤ
  topic : Option String
  unit : Option String
  confidence : ℚ
  clarification_question : Option String
deriving DecidableEq

/-- `RouteDecision` from `router.py`. -/
structure RouteDecision where
  result : RouteResult
  options : List Candidate
deriving DecidableEq

/-- The configuration of a `TopicRouter` (constructor arguments that
`route` reads), together with the abstract similarity function standing
for the TF-IDF + cosine pipeline.  Defaults in the source:
`top_k = 8`, `min_confidence = 0.55`, `min_score = 0.18`. -/
structure TopicRouter where
  topics : List TopicRow
  top_k : ℕ
  min_confidence : ℚ
  min_score : ℚ
  use_gemini : Bool
  sims : String → List ℚ

/-- Outcome of the `client.models.generate_content` call: the call raises
(transport error), or returns a response with an optional `.parsed`
attribute and an optional `.text`. -/
inductive GeminiOutcome where
  | transportError
  | response (parsed : Option RouteResult) (text : Option String)

/-- A Python exception escaping `route` to its caller. -/
inductive PyExc where
  | transport
  | validation
deriving DecidableEq

/-! ## Lexical candidate generation (`TopicRouter._candidates`) -/

/-- Placeholder row for out-of-range indexing (never reached when the
similarity vector has one entry per topic). -/
def defaultTopicRow : TopicRow := ⟨0, "", "", ""⟩

/-- The index shortlist of `_candidates`:
`sims.argsort()[::-1][: self.top_k]`. -/
def rankedIdxs (r : TopicRouter) (text : String) : List ℕ :=
  ((argsort (r.sims text)).reverse).take r.top_k

/-- Building one `Candidate` from a topic index, as the loop body of
`_candidates` does. -/
def mkCandidate (r : TopicRouter) (text : String) (i : ℕ) : Candidate :=
  let t := r.topics.getD i defaultTopicRow
  ⟨t.id, t.konu, t.birim, (r.sims text).getD i 0⟩

/-- Model of `TopicRouter._candidates`. -/
def candidatesOf (r : TopicRouter) (text : String) : List Candidate :=
  (rankedIdxs r text).map (mkCandidate r text)

/-! ## The decision policy (`TopicRouter.route`) -/

/-- The `matched=False, confidence=0.0` result returned by the early
gates. -/
def noMatchZero : RouteResult :=
  ⟨false, none, none, none, 0, none⟩

/-- The lexical-fallback decision `route` builds from the best candidate
when the Gemini answer is missing, broken or untrusted: `matched=True`
with confidence `min(0.6, max(0.2, best.score))`. -/
def fallbackDecision (best : Candidate) : RouteDecision :=
  ⟨⟨true, some best.id, some best.konu, some best.birim,
    min (6/10) (max (2/10) best.score), none⟩, []⟩

/-- Model of `tmap = {t.id: t for t in self.topics}` followed by
`tmap[tid]`: a Python dict comprehension keeps the **last** entry per
key. -/
def tmapGet (topics : List TopicRow) (tid : ℤ) : Option TopicRow :=
  topics.reverse.find? (fun t => t.id == tid)

/-- The tail of `route` once a parsed `RouteResult` is in hand: trust the
model's answer only if `matched` is set, its id is in the catalog and its
confidence reaches `min_confidence`; re-read the catalog record by id when
trusted, otherwise fall back to the best lexical candidate. -/
def finishParsed (r : TopicRouter) (best : Candidate) (parsed : RouteResult) :
    RouteDecision :=
  match (if parsed.matched then parsed.topic_id.bind (tmapGet r.topics) else none) with
  | some t =>
    if r.min_confidence ≤ parsed.confidence then
      ⟨⟨true, some t.id, some t.konu, some t.birim, parsed.confidence, none⟩, []⟩
    else fallbackDecision best
  | none => fallbackDecision best

/-- Model of `TopicRouter.route`.  `pj` stands for
`RouteResult.model_validate_json` (`none` = raises) and `llm` for the
outcome of the Gemini call; both are irrelevant on the no-LLM paths. -/
def route (r : TopicRouter) (pj : String → Option RouteResult) (userText : String)
    (llm : GeminiOutcome) : Except PyExc RouteDecision :=
  if (pyStrip userText).length < 4 then
    .ok ⟨noMatchZero, []⟩
  else if 4 ≤ userText.data.countP pyIsAlpha ∧ userText.data.countP isRouteVowel = 0 then
    .ok ⟨noMatchZero, []⟩
  else
    match candidatesOf r userText with
    | [] => .ok ⟨noMatchZero, []⟩
    | best :: _ =>
      if best.score < r.min_score then
        .ok ⟨⟨false, none, none, none, best.score, none⟩, []⟩
      else if r.use_gemini = false then
        .ok ⟨⟨true, some best.id, some best.konu, some best.birim,
              min (95/100) (max (2/10) best.score), none⟩, []⟩
      else
        match llm with
        | .transportError => .error .transport
        | .response parsedAttr text =>
          match (match parsedAttr with
                 | some p => some p
                 | none => text.bind pj) with
          | some parsed => .ok (finishParsed r best parsed)
          | none =>
            let txt := (pyStrip (text.getD "")).data
            match braceSub txt with
            | some sub =>
              match pj (String.mk sub) with
              | some parsed => .ok (finishParsed r best parsed)
              | none => .error .validation
            | none => .ok (fallbackDecision best)

/-- Does the Gemini phase of `route` raise an exception to the caller?
`true` exactly when the call itself raises, or every caught parse attempt
fails and the final, uncaught `model_validate_json` on the extracted
`[...]`-brace slice fails too. -/
def llmRaises (pj : String → Option RouteResult) : GeminiOutcome → Bool
  | .transportError => true
  | .response parsedAttr text =>
    parsedAttr.isNone && (text.bind pj).isNone &&
      (match braceSub (pyStrip (text.getD "")).data with
       | some sub => (pj (String.mk sub)).isNone
       | none => false)

/-! ## Catalog loading (`konu_birim.py`, `load_topics` row loop) -/

/-- One row of the tabular source after the dataframe-level steps of
`load_topics` (required-column check, active filter, `dropna`): `rid` is
the result of `_parse_int` on the `ID` cell (`none` = unparsable), the
text cells are carried verbatim, and `extras` are the cells of the present
optional keyword/description columns (`none` = missing/NaN). -/
structure RawRow where
  rid : Option ℤ
  konu : String
  birim : String
  extras : List (Option String)
deriving DecidableEq

/-- Result of the loading loop: retained rows, count of duplicate-id
warnings logged, and count of rows skipped for data quality. -/
structure LoadOutcome where
  topics : List TopicRow
  dupIdWarnings : ℕ
  skipped : ℕ
deriving DecidableEq

/-- The `match_source` / `match_text` construction of the loop body. -/
def buildMatchText (konu birim : String) (extras : List (Option String)) : String :=
  let extraParts := ((extras.filterMap id).map cleanText).filter (· ≠ "")
  let matchSource := String.intercalate " " ([konu, birim] ++ extraParts)
  if normalizeMatch matchSource = "" then normalizeMatch konu else normalizeMatch matchSource

/-- Model of the row loop of `load_topics` (lines 96–130 of
`konu_birim.py`), carrying the `seen_ids` and `seen_pairs` sets. -/
def loadLoop (seenIds : List ℤ) (seenPairs : List (String × String)) :
    List RawRow → LoadOutcome
  | [] => ⟨[], 0, 0⟩
  | r :: rest =>
    match r.rid with
    | none =>
      let s := loadLoop seenIds seenPairs rest
      ⟨s.topics, s.dupIdWarnings, s.skipped + 1⟩
    | some rid =>
      let konu := cleanText r.konu
      let birim := cleanText r.birim
      if konu.length < 2 ∨ birim.length < 2 then
        let s := loadLoop seenIds seenPairs rest
        ⟨s.topics, s.dupIdWarnings, s.skipped + 1⟩
      else if rid ∈ seenIds then
        let s := loadLoop seenIds seenPairs rest
        ⟨s.topics, s.dupIdWarnings + 1, s.skipped⟩
      else
        let pairKey := (pyLower konu, pyLower birim)
        if pairKey ∈ seenPairs then
          loadLoop seenIds seenPairs rest
        else
          let s := loadLoop (rid :: seenIds) (pairKey :: seenPairs) rest
          ⟨⟨rid, konu, birim, buildMatchText konu birim r.extras⟩ :: s.topics,
            s.dupIdWarnings, s.skipped⟩

/-- The catalog produced by the loading loop from fresh `seen` sets. -/
def loadTopics (rows : List RawRow) : LoadOutcome := loadLoop [] [] rows

/-! ## Derived definitions used by the verification -/

/-- The score a topic index receives from the similarity vector. -/
def keyOf (sims : List ℚ) (i : ℕ) : ℚ := sims.getD i 0

/-- Index `i` ranks strictly after index `j` in the ascending argsort:
lower score, or equal score and smaller index (stability). -/
def RankAfter (sims : List ℚ) (i j : ℕ) : Prop :=
  keyOf sims i < keyOf sims j ∨ (keyOf sims i = keyOf sims j ∧ i < j)

/-- Index `i` comes strictly before index `j` in the reversed (descending)
shortlist: higher score, or equal score and larger index. -/
def RankBefore (sims : List ℚ) (i j : ℕ) : Prop := RankAfter sims j i

/-- Membership of a (possibly absent) topic id in the catalog — the
`result.topic_id in tmap` test of `route`. -/
def idInCatalog (topics : List TopicRow) : Option ℤ → Bool
  | none => false
  | some tid => topics.any (fun t => t.id == tid)

/-- The parsed `RouteResult` that `route`'s defensive parse chain obtains
from the Gemini outcome, if any: the `.parsed` attribute, else a parse of
the raw text, else a parse of the extracted outermost brace slice. -/
def geminiParsed (pj : String → Option RouteResult) : GeminiOutcome → Option RouteResult
  | .transportError => none
  | .response parsedAttr text =>
    match (match parsedAttr with
           | some p => some p
           | none => text.bind pj) with
    | some p => some p
    | none =>
      match braceSub (pyStrip (text.getD "")).data with
      | some sub => pj (String.mk sub)
      | none => none

/-! ## Concrete fixtures for witnesses and counterexamples -/

/-- A `model_validate_json` oracle that always fails to parse. -/
def pjNone : String → Option RouteResult := fun _ => none

/-- The catalog row of the end-to-end scenario in the specification. -/
def topicLamp : TopicRow :=
  ⟨12, "Sokak Lambası Arızası", "Aydınlatma Birimi",
   "sokak lambası arızası aydınlatma birimi"⟩

/-- A router over the one-row catalog with the LLM disabled.  The
thresholds are integral so that the fixture evaluates by kernel
reduction. -/
def rNoLLM : TopicRouter := ⟨[topicLamp], 8, 1, 0, false, fun _ => [1]⟩

/-- The same router with the LLM enabled. -/
def rLLM : TopicRouter := ⟨[topicLamp], 8, 1, 0, true, fun _ => [1]⟩

/-- A router whose min-score threshold exceeds every similarity score. -/
def rLowScore : TopicRouter := ⟨[topicLamp], 8, 1, 1, false, fun _ => [0]⟩

/-- A two-row catalog. -/
def topicA : TopicRow := ⟨1, "AA", "BB", "aa bb"⟩

/-- Second row of the two-row catalog. -/
def topicB : TopicRow := ⟨2, "CC", "DD", "cc dd"⟩

/-- A two-topic router whose best lexical candidate is `topicA`, with
the LLM enabled. -/
def rPair : TopicRouter := ⟨[topicA, topicB], 8, 1, 0, true, fun _ => [1, 0]⟩

/-- A two-topic router whose similarity scores tie. -/
def rTie : TopicRouter := ⟨[topicA, topicB], 8, 1, 0, false, fun _ => [1, 1]⟩

/-- A Gemini answer whose id is in the catalog and whose confidence
reaches the threshold, but with `matched=False`. -/
def pUnmatched : RouteResult := ⟨false, some 2, none, none, 1, none⟩

/-- A trusted Gemini answer for topic id 2 (with hallucinated topic/unit
text, which must not be echoed). -/
def pTrusted : RouteResult := ⟨true, some 2, some "Hallucinated", some "Wrong Unit", 1, none⟩

/-- A Gemini answer naming an id that is not in the catalog. -/
def pBadId : RouteResult := ⟨true, some 99, none, none, 1, none⟩


/-! ## Ordering facts about the stable argsort -/

theorem RankAfter.le {sims : List ℚ} {i j : ℕ} (h : RankAfter sims i j) :
    keyOf sims i ≤ keyOf sims j := by
  rcases h with h | ⟨h, _⟩
  · exact le_of_lt h
  · exact le_of_eq h

theorem insertAsc_perm (le : ℕ → ℕ → Bool) (i : ℕ) (l : List ℕ) :
    (insertAsc le i l).Perm (i :: l) := by
  induction l with
  | nil => simp [insertAsc]
  | cons j rest ih =>
    by_cases h : le i j
    · simp [insertAsc, h]
    · simp only [insertAsc, if_neg h]
      exact (ih.cons j).trans (List.Perm.swap i j rest)

theorem stableSortAsc_perm (le : ℕ → ℕ → Bool) (l : List ℕ) :
    (stableSortAsc le l).Perm l := by
  induction l with
  | nil => simp [stableSortAsc]
  | cons i rest ih => exact (insertAsc_perm le i _).trans (ih.cons i)

theorem insertAsc_pairwise (sims : List ℚ) (i : ℕ) (l : List ℕ)
    (hlt : ∀ j ∈ l, i < j) (hp : l.Pairwise (RankAfter sims)) :
    (insertAsc (simLe sims) i l).Pairwise (RankAfter sims) := by
  induction l with
  | nil => simp [insertAsc, List.pairwise_singleton]
  | cons j rest ih =>
    rcases List.pairwise_cons.mp hp with ⟨hj, hrest⟩
    by_cases h : simLe sims i j
    · simp only [insertAsc, if_pos h]
      refine List.pairwise_cons.mpr ⟨?_, hp⟩
      intro k hk
      have hij : keyOf sims i ≤ keyOf sims j := by
        simpa [simLe, keyOf] using h
      rcases List.mem_cons.mp hk with rfl | hk
      · rcases lt_or_eq_of_le hij with hlt2 | heq
        · exact Or.inl hlt2
        · exact Or.inr ⟨heq, hlt k (List.mem_cons_self k rest)⟩
      · have hjk : keyOf sims j ≤ keyOf sims k := (hj k hk).le
        rcases lt_or_eq_of_le (le_trans hij hjk) with hlt2 | heq
        · exact Or.inl hlt2
        · exact Or.inr ⟨heq, hlt k (List.mem_cons_of_mem j hk)⟩
    · simp only [insertAsc, if_neg h]
      refine List.pairwise_cons.mpr ⟨?_, ih (fun m hm => hlt m (List.mem_cons_of_mem j hm)) hrest⟩
      intro k hk
      rcases List.mem_cons.mp ((insertAsc_perm (simLe sims) i rest).mem_iff.mp hk) with rfl | hk
      · have : ¬ keyOf sims k ≤ keyOf sims j := by
          simpa [simLe, keyOf] using h
        exact Or.inl (lt_of_not_le this)
      · exact hj k hk

theorem stableSortAsc_pairwise (sims : List ℚ) (l : List ℕ)
    (h : l.Pairwise (· < ·)) :
    (stableSortAsc (simLe sims) l).Pairwise (RankAfter sims) := by
  induction l with
  | nil => simp [stableSortAsc]
  | cons i rest ih =>
    rcases List.pairwise_cons.mp h with ⟨hi, hrest⟩
    refine insertAsc_pairwise sims i _ ?_ (ih hrest)
    intro j hj
    exact hi j ((stableSortAsc_perm _ rest).mem_iff.mp hj)

theorem argsort_perm (sims : List ℚ) :
    (argsort sims).Perm (List.range sims.length) :=
  stableSortAsc_perm _ _

theorem argsort_pairwise (sims : List ℚ) :
    (argsort sims).Pairwise (RankAfter sims) :=
  stableSortAsc_pairwise sims _ (List.pairwise_lt_range _)

theorem rankedIdxs_length (r : TopicRouter) (t : String)
    (hlen : (r.sims t).length = r.topics.length) :
    (rankedIdxs r t).length = min r.top_k r.topics.length := by
  have h := (argsort_perm (r.sims t)).length_eq
  simp [rankedIdxs, List.length_take, h, List.length_range, hlen]

theorem rankedIdxs_sorted (r : TopicRouter) (t : String) :
    (rankedIdxs r t).Pairwise (RankBefore (r.sims t)) := by
  have h : ((argsort (r.sims t)).reverse).Pairwise (RankBefore (r.sims t)) :=
    List.pairwise_reverse.mpr (argsort_pairwise (r.sims t))
  exact List.Pairwise.sublist (List.take_sublist _ _) h

theorem rankedIdxs_dominates (r : TopicRouter) (t : String)
    (hlen : (r.sims t).length = r.topics.length) :
    ∀ i ∈ rankedIdxs r t, ∀ j, j < r.topics.length → j ∉ rankedIdxs r t →
      keyOf (r.sims t) j ≤ keyOf (r.sims t) i := by
  intro i hi j hj hnj
  have hfull : ((argsort (r.sims t)).reverse).Pairwise (RankBefore (r.sims t)) :=
    List.pairwise_reverse.mpr (argsort_pairwise (r.sims t))
  have hjfull : j ∈ (argsort (r.sims t)).reverse := by
    rw [List.mem_reverse]
    exact (argsort_perm _).mem_iff.mpr (List.mem_range.mpr (by rw [hlen]; exact hj))
  rw [← List.take_append_drop r.top_k ((argsort (r.sims t)).reverse)] at hjfull hfull
  rcases List.mem_append.mp hjfull with hcase | hcase
  · exact absurd hcase hnj
  · exact ((List.pairwise_append.mp hfull).2.2 i hi j hcase).le

theorem rankedIdxs_all (r : TopicRouter) (t : String)
    (hlen : (r.sims t).length = r.topics.length)
    (hk : r.topics.length ≤ r.top_k) :
    (rankedIdxs r t).Perm (List.range r.topics.length) := by
  have hrl : ((argsort (r.sims t)).reverse).length = r.topics.length := by
    rw [List.length_reverse, (argsort_perm _).length_eq, List.length_range, hlen]
  rw [rankedIdxs, List.take_of_length_le (le_trans (le_of_eq hrl) hk)]
  refine ((argsort (r.sims t)).reverse_perm.trans (argsort_perm _)).trans ?_
  rw [hlen]

/-! ## Helper lemmas about the decision policy -/

theorem tmapGet_eq_none {topics : List TopicRow} {tid : ℤ}
    (h : topics.any (fun t => t.id == tid) = false) :
    tmapGet topics tid = none := by
  rw [tmapGet, List.find?_eq_none]
  intro x hx
  have := List.any_eq_false.mp h x (List.mem_reverse.mp hx)
  simpa using this

theorem finishParsed_untrusted (r : TopicRouter) (best : Candidate) (p : RouteResult)
    (h : idInCatalog r.topics p.topic_id = false ∨ p.confidence < r.min_confidence) :
    finishParsed r best p = fallbackDecision best := by
  unfold finishParsed
  cases hm : p.matched with
  | false => simp
  | true =>
    cases hid : p.topic_id with
    | none => simp
    | some tid =>
      rcases h with h | h
      · rw [hid] at h
        rw [show idInCatalog r.topics (some tid) = r.topics.any (fun t => t.id == tid) from rfl] at h
        simp [Option.bind, tmapGet_eq_none h]
      · cases ht : tmapGet r.topics tid with
        | none => simp [Option.bind, ht]
        | some tr => simp [Option.bind, ht, not_le.mpr h]

theorem finishParsed_trusted (r : TopicRouter) (best : Candidate) (p : RouteResult)
    (tid : ℤ) (tr : TopicRow)
    (hm : p.matched = true) (hid : p.topic_id = some tid)
    (ht : tmapGet r.topics tid = some tr)
    (hconf : r.min_confidence ≤ p.confidence) :
    finishParsed r best p =
      ⟨⟨true, some tr.id, some tr.konu, some tr.birim, p.confidence, none⟩, []⟩ := by
  unfold finishParsed
  rw [hm, hid]
  simp [Option.bind, ht, hconf]

theorem finishParsed_options (r : TopicRouter) (best : Candidate) (p : RouteResult) :
    (finishParsed r best p).options = [] := by
  unfold finishParsed
  rcases (if p.matched then p.topic_id.bind (tmapGet r.topics) else none) with _ | tr
  · rfl
  · dsimp only
    split <;> rfl

theorem route_gemini (r : TopicRouter) (pj : String → Option RouteResult)
    (t : String) (llm : GeminiOutcome)
    (h1 : ¬ (pyStrip t).length < 4)
    (h2 : ¬ (4 ≤ t.data.countP pyIsAlpha ∧ t.data.countP isRouteVowel = 0))
    {best : Candidate} {rest : List Candidate}
    (hc : candidatesOf r t = best :: rest)
    (h3 : ¬ best.score < r.min_score)
    (h4 : r.use_gemini = true)
    {p : RouteResult} (hp : geminiParsed pj llm = some p) :
    route r pj t llm = .ok (finishParsed r best p) := by
  unfold route
  rw [if_neg h1, if_neg h2, hc]
  dsimp only
  rw [if_neg h3, if_neg (by simp [h4])]
  cases llm with
  | transportError => exact absurd hp (by simp [geminiParsed])
  | response pa text =>
    cases pa with
    | some q =>
      have : q = p := by simpa [geminiParsed] using hp
      subst this
      rfl
    | none =>
      cases hbind : text.bind pj with
      | some q =>
        have : q = p := by simpa [geminiParsed, hbind] using hp
        subst this
        simp [hbind]
      | none =>
        cases hbr : braceSub (pyStrip (text.getD "")).data with
        | none => exact absurd hp (by simp [geminiParsed, hbind, hbr])
        | some sub =>
          cases hpj : pj (String.mk sub) with
          | none => exact absurd hp (by simp [geminiParsed, hbind, hbr, hpj])
          | some q =>
            have : q = p := by simpa [geminiParsed, hbind, hbr, hpj] using hp
            subst this
            simp [hbind, hbr, hpj]

/-! ## Claim theorems -/

/-- C6: when LLM refinement is disabled and the input passes the length,
vowel, shortlist and minimum-score gates, `route` returns `matched=true`
with the best lexical candidate's id, topic and department, and confidence
equal to the raw similarity score clamped to the interval `[0.2, 0.95]`. -/
theorem route_no_llm_clamped (r : TopicRouter) (pj : String → Option RouteResult)
    (t : String) (llm : GeminiOutcome)
    (h1 : ¬ (pyStrip t).length < 4)
    (h2 : ¬ (4 ≤ t.data.countP pyIsAlpha ∧ t.data.countP isRouteVowel = 0))
    {best : Candidate} {rest : List Candidate}
    (hc : candidatesOf r t = best :: rest)
    (h3 : ¬ best.score < r.min_score)
    (h4 : r.use_gemini = false) :
    route r pj t llm = .ok ⟨⟨true, some best.id, some best.konu, some best.birim,
      min (95/100) (max (2/10) best.score), none⟩, []⟩ := by
  unfold route
  rw [if_neg h1, if_neg h2, hc]
  dsimp only
  rw [if_neg h3, if_pos h4]

/-- Witness for C6 at the end-to-end scenario of the specification
(catalog row id 12, `Aydınlatma Birimi`). -/
theorem route_no_llm_clamped_witness :
    route rNoLLM pjNone "mahallede sokak lambası yanmıyor" .transportError =
      .ok ⟨⟨true, some 12, some "Sokak Lambası Arızası", some "Aydınlatma Birimi",
        min (95/100) (max (2/10) 1), none⟩, []⟩ :=
  route_no_llm_clamped rNoLLM pjNone "mahallede sokak lambası yanmıyor" .transportError
    (by decide) (by decide) rfl (by decide) rfl

/-- C7: when the input passes the length, vowel and shortlist gates but
the best candidate's score is strictly below `min_score`, `route` returns
`matched=false` with confidence equal to the best score (not 0) and no
topic id, topic name or department. -/
theorem route_min_score_gate (r : TopicRouter) (pj : String → Option RouteResult)
    (t : String) (llm : GeminiOutcome)
    (h1 : ¬ (pyStrip t).length < 4)
    (h2 : ¬ (4 ≤ t.data.countP pyIsAlpha ∧ t.data.countP isRouteVowel = 0))
    {best : Candidate} {rest : List Candidate}
    (hc : candidatesOf r t = best :: rest)
    (h3 : best.score < r.min_score) :
    route r pj t llm = .ok ⟨⟨false, none, none, none, best.score, none⟩, []⟩ := by
  unfold route
  rw [if_neg h1, if_neg h2, hc]
  dsimp only
  rw [if_pos h3]

/-- Witness for C7: an unrelated query whose best score (0) is below the
threshold (1). -/
theorem route_min_score_gate_witness :
    route rLowScore pjNone "zxqv ertyu" .transportError =
      .ok ⟨⟨false, none, none, none, 0, none⟩, []⟩ :=
  route_min_score_gate rLowScore pjNone "zxqv ertyu" .transportError
    (by decide) (by decide) rfl (by decide)

/-- C8: an input whose stripped length is at least 4, with at least 4
alphabetic characters and zero Turkish vowels, yields `matched=false`,
confidence `0.0` and no candidates; and the gate's vowel test does not
fire on `"cop toplanmadi"` (it contains vowels). -/
theorem route_vowel_gate :
    (∀ (r : TopicRouter) (pj : String → Option RouteResult) (t : String) (llm : GeminiOutcome),
        ¬ (pyStrip t).length < 4 →
        4 ≤ t.data.countP pyIsAlpha →
        t.data.countP isRouteVowel = 0 →
        route r pj t llm = .ok ⟨noMatchZero, []⟩) ∧
    "cop toplanmadi".data.countP isRouteVowel ≠ 0 := by
  constructor
  · intro r pj t llm h1 ha hv
    unfold route
    rw [if_neg h1, if_pos ⟨ha, hv⟩]
  · decide

/-- Witness for C8 at the specification's example `"xzwzw"`. -/
theorem route_vowel_gate_witness :
    route rNoLLM pjNone "xzwzw" .transportError = .ok ⟨noMatchZero, []⟩ :=
  route_vowel_gate.1 rNoLLM pjNone "xzwzw" .transportError (by decide) (by decide) (by decide)

/-- C10: over a non-empty catalog with `top_k ≥ 1` (and the similarity
vector carrying one score per topic, as `cosine_similarity` always does),
the candidate generator returns a non-empty list for every query, so the
empty-shortlist branch of `route` is unreachable. -/
theorem candidates_nonempty (r : TopicRouter) (t : String)
    (hne : r.topics ≠ []) (hk : 1 ≤ r.top_k)
    (hlen : (r.sims t).length = r.topics.length) :
    candidatesOf r t ≠ [] := by
  intro h
  have hl : (candidatesOf r t).length = 0 := by rw [h]; rfl
  rw [candidatesOf, List.length_map, rankedIdxs_length r t hlen] at hl
  have htop : 0 < r.topics.length := List.length_pos.mpr hne
  have hmin : 0 < min r.top_k r.topics.length := lt_min_iff.mpr ⟨hk, htop⟩
  omega

/-- Witness for C10 on a concrete one-topic router. -/
theorem candidates_nonempty_witness : candidatesOf rNoLLM "zz" ≠ [] :=
  candidates_nonempty rNoLLM "zz" (by decide) (by decide) rfl

/-- C3: whenever the parse chain yields an answer whose topic id is not in
the catalog or whose confidence is below `min_confidence`, `route` does
not return `matched=false`: it substitutes the top lexical candidate with
confidence clamped to `[0.2, 0.6]`. -/
theorem route_untrusted_substitutes_best (r : TopicRouter)
    (pj : String → Option RouteResult) (t : String) (llm : GeminiOutcome)
    (h1 : ¬ (pyStrip t).length < 4)
    (h2 : ¬ (4 ≤ t.data.countP pyIsAlpha ∧ t.data.countP isRouteVowel = 0))
    {best : Candidate} {rest : List Candidate}
    (hc : candidatesOf r t = best :: rest)
    (h3 : ¬ best.score < r.min_score)
    (h4 : r.use_gemini = true)
    {p : RouteResult} (hp : geminiParsed pj llm = some p)
    (hun : idInCatalog r.topics p.topic_id = false ∨ p.confidence < r.min_confidence) :
    route r pj t llm = .ok ⟨⟨true, some best.id, some best.konu, some best.birim,
      min (6/10) (max (2/10) best.score), none⟩, []⟩ := by
  rw [route_gemini r pj t llm h1 h2 hc h3 h4 hp,
    finishParsed_untrusted r best p hun]
  rfl

/-- Witness for C3: the model names id 99, which is not in the one-row
catalog; the best lexical candidate (id 12) is substituted. -/
theorem route_untrusted_substitutes_best_witness :
    route rLLM pjNone "sokak lambasi yanmiyor" (.response (some pBadId) none) =
      .ok ⟨⟨true, some 12, some "Sokak Lambası Arızası", some "Aydınlatma Birimi",
        min (6/10) (max (2/10) 1), none⟩, []⟩ :=
  route_untrusted_substitutes_best rLLM pjNone "sokak lambasi yanmiyor"
    (.response (some pBadId) none) (by decide) (by decide) rfl (by decide) rfl rfl
    (Or.inl (by decide))

/-- C2 (amended): when the parsed answer additionally reports
`matched=true`, and its id is in the catalog with confidence at or above
`min_confidence`, the returned topic name and department are re-read from
the catalog record for that id (never the model's own text) and the
confidence is the model's reported confidence. -/
theorem route_trusted_catalog_authoritative (r : TopicRouter)
    (pj : String → Option RouteResult) (t : String) (llm : GeminiOutcome)
    (h1 : ¬ (pyStrip t).length < 4)
    (h2 : ¬ (4 ≤ t.data.countP pyIsAlpha ∧ t.data.countP isRouteVowel = 0))
    {best : Candidate} {rest : List Candidate}
    (hc : candidatesOf r t = best :: rest)
    (h3 : ¬ best.score < r.min_score)
    (h4 : r.use_gemini = true)
    {p : RouteResult} (hp : geminiParsed pj llm = some p)
    (tid : ℤ) (tr : TopicRow)
    (hm : p.matched = true) (hid : p.topic_id = some tid)
    (ht : tmapGet r.topics tid = some tr)
    (hconf : r.min_confidence ≤ p.confidence) :
    route r pj t llm =
      .ok ⟨⟨true, some tr.id, some tr.konu, some tr.birim, p.confidence, none⟩, []⟩ := by
  rw [route_gemini r pj t llm h1 h2 hc h3 h4 hp,
    finishParsed_trusted r best p tid tr hm hid ht hconf]

/-- Witness for C2 (amended): the model answers for id 2 with hallucinated
topic/department text; the catalog record's `CC`/`DD` are returned
instead, with the model confidence. -/
theorem route_trusted_catalog_authoritative_witness :
    route rPair pjNone "sokak lambasi yanmiyor" (.response (some pTrusted) none) =
      .ok ⟨⟨true, some 2, some "CC", some "DD", 1, none⟩, []⟩ :=
  route_trusted_catalog_authoritative rPair pjNone "sokak lambasi yanmiyor"
    (.response (some pTrusted) none) (by decide) (by decide) rfl (by decide) rfl rfl
    2 topicB rfl rfl rfl (by decide)

/-- C2 counterexample: a parsed answer whose id (2) is in the catalog and
whose confidence (1) meets the threshold — the claim's trust condition —
but with `matched=False`.  `route` does not return the catalog record for
id 2 with the model's confidence: it substitutes the best lexical
candidate, id 1, with clamped confidence. -/
theorem route_trusted_claim_counterexample :
    idInCatalog rPair.topics pUnmatched.topic_id = true ∧
    rPair.min_confidence ≤ pUnmatched.confidence ∧
    pUnmatched.topic_id = some 2 ∧
    route rPair pjNone "sokak lambasi yanmiyor" (.response (some pUnmatched) none) =
      .ok ⟨⟨true, some 1, some "AA", some "BB", min (6/10) (max (2/10) 1), none⟩, []⟩ ∧
    (1 : ℤ) ≠ 2 :=
  ⟨by decide, by decide, rfl, rfl, by decide⟩

/-- C4 (amended): the `options` field of every decision `route` returns is
the empty list — the ranked candidate shortlist is never carried on the
returned `RouteDecision`. -/
theorem route_options_always_empty (r : TopicRouter) (pj : String → Option RouteResult)
    (t : String) (llm : GeminiOutcome) (d : RouteDecision)
    (h : route r pj t llm = .ok d) : d.options = [] := by
  unfold route at h
  repeat
    first
    | (obtain rfl := Except.ok.inj h
       first
       | rfl
       | exact finishParsed_options _ _ _)
    | exact Except.noConfusion h
    | split at h
    | dsimp only at h

/-- Witness for C4 (amended) at a concrete call. -/
theorem route_options_always_empty_witness :
    (RouteDecision.mk noMatchZero []).options = [] :=
  route_options_always_empty rNoLLM pjNone "xzwzw" .transportError
    (RouteDecision.mk noMatchZero []) rfl

/-- C4 counterexample: a call for which a non-empty shortlist was
generated, yet the returned decision's `options` field is the empty list,
not that candidate list. -/
theorem route_options_counterexample :
    candidatesOf rNoLLM "mahallede sokak lambası yanmıyor" =
      [⟨12, "Sokak Lambası Arızası", "Aydınlatma Birimi", 1⟩] ∧
    route rNoLLM pjNone "mahallede sokak lambası yanmıyor" .transportError =
      .ok ⟨⟨true, some 12, some "Sokak Lambası Arızası", some "Aydınlatma Birimi",
        min (95/100) (max (2/10) 1), none⟩, []⟩ ∧
    ([] : List Candidate) ≠ [⟨12, "Sokak Lambası Arızası", "Aydınlatma Birimi", 1⟩] :=
  ⟨rfl, rfl, by decide⟩

/-- C1 (amended): `route` returns a well-formed `RouteDecision` — never an
exception — whenever the Gemini phase does not itself raise, i.e. except
when the generate call raises a transport error, or when every caught
parse attempt fails and the final, uncaught parse of the extracted brace
slice fails too. -/
theorem route_ok_unless_llm_raises (r : TopicRouter) (pj : String → Option RouteResult)
    (t : String) (llm : GeminiOutcome)
    (h : llmRaises pj llm = false) :
    ∃ d, route r pj t llm = .ok d := by
  cases llm with
  | transportError => exact absurd h (by simp [llmRaises])
  | response pa text =>
    unfold route
    by_cases h1 : (pyStrip t).length < 4
    · rw [if_pos h1]; exact ⟨_, rfl⟩
    rw [if_neg h1]
    by_cases h2 : 4 ≤ t.data.countP pyIsAlpha ∧ t.data.countP isRouteVowel = 0
    · rw [if_pos h2]; exact ⟨_, rfl⟩
    rw [if_neg h2]
    cases hc : candidatesOf r t with
    | nil => exact ⟨_, rfl⟩
    | cons best rest =>
      dsimp only
      by_cases h3 : best.score < r.min_score
      · rw [if_pos h3]; exact ⟨_, rfl⟩
      rw [if_neg h3]
      by_cases h4 : r.use_gemini = false
      · rw [if_pos h4]; exact ⟨_, rfl⟩
      rw [if_neg h4]
      cases pa with
      | some p => exact ⟨_, rfl⟩
      | none =>
        cases hbind : text.bind pj with
        | some p => simp only [hbind]; exact ⟨_, rfl⟩
        | none =>
          simp only [hbind]
          cases hbr : braceSub (pyStrip (text.getD "")).data with
          | none => simp only [hbr]; exact ⟨_, rfl⟩
          | some sub =>
            simp only [hbr]
            cases hpj : pj (String.mk sub) with
            | some p => simp only [hpj]; exact ⟨_, rfl⟩
            | none => exact absurd h (by simp [llmRaises, hbind, hbr, hpj])

/-- Witness for C1 (amended): a garbage text response with no brace pair
falls back to the lexical candidate and returns a decision. -/
theorem route_ok_unless_llm_raises_witness :
    ∃ d, route rLLM pjNone "sokak lambasi yanmiyor"
      (.response none (some "no braces here")) = .ok d :=
  route_ok_unless_llm_raises rLLM pjNone "sokak lambasi yanmiyor"
    (.response none (some "no braces here")) rfl

/-- C1 counterexample: with the gates passed and Gemini enabled, a
transport failure of the generate call propagates out of `route`, and a
malformed text response whose extracted brace slice fails validation
raises too — `route` does not return a `RouteDecision` in either case. -/
theorem route_raises_counterexample :
    route rLLM pjNone "sokak lambasi yanmiyor" .transportError = .error .transport ∧
    route rLLM pjNone "sokak lambasi yanmiyor"
      (.response none (some "x \x7bbad\x7d y")) = .error .validation :=
  ⟨rfl, rfl⟩

/-- C5 (amended): for every query and `topK`, the lexical ranker returns
the `topK` highest-scoring topics in descending score order, with ties in
score broken by **reverse** catalog order (the last-indexed topic wins the
tie — the code reverses a stable ascending argsort); if `topK` is at least
the catalog size, the whole catalog is ranked. -/
theorem candidates_ranked_desc (r : TopicRouter) (t : String)
    (hlen : (r.sims t).length = r.topics.length) :
    (rankedIdxs r t).length = min r.top_k r.topics.length ∧
    (rankedIdxs r t).Pairwise (RankBefore (r.sims t)) ∧
    (candidatesOf r t).Pairwise (fun a b => b.score ≤ a.score) ∧
    (∀ i ∈ rankedIdxs r t, ∀ j, j < r.topics.length → j ∉ rankedIdxs r t →
        keyOf (r.sims t) j ≤ keyOf (r.sims t) i) ∧
    (r.topics.length ≤ r.top_k → (rankedIdxs r t).Perm (List.range r.topics.length)) := by
  refine ⟨rankedIdxs_length r t hlen, rankedIdxs_sorted r t, ?_,
    rankedIdxs_dominates r t hlen, rankedIdxs_all r t hlen⟩
  rw [candidatesOf, List.pairwise_map]
  exact (rankedIdxs_sorted r t).imp (fun h => RankAfter.le h)

/-- Witness for C5 (amended) on a concrete two-topic router. -/
theorem candidates_ranked_desc_witness :
    (rankedIdxs rTie "aaaa").length = min rTie.top_k rTie.topics.length :=
  (candidates_ranked_desc rTie "aaaa" rfl).1

/-- C5 counterexample: the two topics tie in score, and the ranker returns
the **last**-indexed topic (id 2) first — the first-indexed topic does not
win the tie as claimed. -/
theorem candidates_tie_counterexample :
    rTie.sims "aaaa" = [1, 1] ∧
    (candidatesOf rTie "aaaa").map (fun c => c.id) = [2, 1] ∧
    ([2, 1] : List ℤ) ≠ [1, 2] :=
  ⟨rfl, rfl, by decide⟩

/-- Invariants of the loading loop: every retained record's id avoids the
`seen_ids` accumulator, every retained record's lowered pair avoids
`seen_pairs`, and both projections of the output are duplicate-free. -/
theorem loadLoop_invariants (rows : List RawRow) :
    ∀ seenIds seenPairs,
      (∀ tp ∈ (loadLoop seenIds seenPairs rows).topics, tp.id ∉ seenIds) ∧
      (∀ tp ∈ (loadLoop seenIds seenPairs rows).topics,
          (pyLower tp.konu, pyLower tp.birim) ∉ seenPairs) ∧
      ((loadLoop seenIds seenPairs rows).topics.map (fun tp => tp.id)).Nodup ∧
      ((loadLoop seenIds seenPairs rows).topics.map
          (fun tp => (pyLower tp.konu, pyLower tp.birim))).Nodup := by
  induction rows with
  | nil => intro seenIds seenPairs; simp [loadLoop]
  | cons r rest ih =>
    intro seenIds seenPairs
    rcases hrid : r.rid with _ | rid
    · simpa [loadLoop, hrid] using ih seenIds seenPairs
    · by_cases hlen2 : (cleanText r.konu).length < 2 ∨ (cleanText r.birim).length < 2
      · simpa [loadLoop, hrid, hlen2] using ih seenIds seenPairs
      · by_cases hseen : rid ∈ seenIds
        · simpa [loadLoop, hrid, hlen2, hseen] using ih seenIds seenPairs
        · by_cases hpair : (pyLower (cleanText r.konu), pyLower (cleanText r.birim)) ∈ seenPairs
          · simpa [loadLoop, hrid, hlen2, hseen, hpair] using ih seenIds seenPairs
          · have hrec := ih (rid :: seenIds)
              ((pyLower (cleanText r.konu), pyLower (cleanText r.birim)) :: seenPairs)
            obtain ⟨hid, hpk, hnodid, hnodpk⟩ := hrec
            have hgoal : loadLoop seenIds seenPairs (r :: rest) =
                ⟨⟨rid, cleanText r.konu, cleanText r.birim,
                    buildMatchText (cleanText r.konu) (cleanText r.birim) r.extras⟩ ::
                  (loadLoop (rid :: seenIds)
                    ((pyLower (cleanText r.konu), pyLower (cleanText r.birim)) :: seenPairs)
                    rest).topics,
                  (loadLoop (rid :: seenIds)
                    ((pyLower (cleanText r.konu), pyLower (cleanText r.birim)) :: seenPairs)
                    rest).dupIdWarnings,
                  (loadLoop (rid :: seenIds)
                    ((pyLower (cleanText r.konu), pyLower (cleanText r.birim)) :: seenPairs)
                    rest).skipped⟩ := by
              simp [loadLoop, hrid, hlen2, hseen, hpair]
            rw [hgoal]
            refine ⟨?_, ?_, ?_, ?_⟩
            · intro tp htp
              rcases List.mem_cons.mp htp with rfl | htp
              · exact hseen
              · exact fun hmem => hid tp htp (List.mem_cons_of_mem _ hmem)
            · intro tp htp
              rcases List.mem_cons.mp htp with rfl | htp
              · exact hpair
              · exact fun hmem => hpk tp htp (List.mem_cons_of_mem _ hmem)
            · rw [List.map_cons, List.nodup_cons]
              refine ⟨?_, hnodid⟩
              intro hmem
              rcases List.mem_map.mp hmem with ⟨tp, htp, heq⟩
              exact hid tp htp (heq ▸ List.mem_cons_self _ _)
            · rw [List.map_cons, List.nodup_cons]
              refine ⟨?_, hnodpk⟩
              intro hmem
              rcases List.mem_map.mp hmem with ⟨tp, htp, htpeq⟩
              exact hpk tp htp (htpeq ▸ List.mem_cons_self _ _)

/-- C9 (amended): the loaded catalog has duplicate-free ids and
duplicate-free lowered `(topic, department)` pairs.  A duplicate of a
**retained** id is dropped with a logged warning, and a duplicate of a
retained pair is dropped silently; but a row dropped by one rule does not
reserve its other key, so the record retained for an id need not be the
first occurrence (see the counterexample). -/
theorem load_topics_dedup :
    (∀ rows : List RawRow,
        ((loadTopics rows).topics.map (fun tp => tp.id)).Nodup ∧
        ((loadTopics rows).topics.map (fun tp => (pyLower tp.konu, pyLower tp.birim))).Nodup) ∧
    (∀ a b : RawRow, ∀ i : ℤ,
        a.rid = some i → b.rid = some i →
        ¬ ((cleanText a.konu).length < 2 ∨ (cleanText a.birim).length < 2) →
        ¬ ((cleanText b.konu).length < 2 ∨ (cleanText b.birim).length < 2) →
        loadTopics [a, b] =
          ⟨[⟨i, cleanText a.konu, cleanText a.birim,
              buildMatchText (cleanText a.konu) (cleanText a.birim) a.extras⟩], 1, 0⟩) ∧
    (∀ a b : RawRow, ∀ i j : ℤ,
        a.rid = some i → b.rid = some j → i ≠ j →
        ¬ ((cleanText a.konu).length < 2 ∨ (cleanText a.birim).length < 2) →
        ¬ ((cleanText b.konu).length < 2 ∨ (cleanText b.birim).length < 2) →
        (pyLower (cleanText b.konu), pyLower (cleanText b.birim)) =
          (pyLower (cleanText a.konu), pyLower (cleanText a.birim)) →
        loadTopics [a, b] =
          ⟨[⟨i, cleanText a.konu, cleanText a.birim,
              buildMatchText (cleanText a.konu) (cleanText a.birim) a.extras⟩], 0, 0⟩) := by
  refine ⟨?_, ?_, ?_⟩
  · intro rows
    obtain ⟨_, _, h3, h4⟩ := loadLoop_invariants rows [] []
    exact ⟨h3, h4⟩
  · intro a b i ha hb hva hvb
    simp [loadTopics, loadLoop, ha, hb, hva, hvb]
  · intro a b i j ha hb hij hva hvb hpk
    simp [loadTopics, loadLoop, ha, hb, hva, hvb, hpk, Ne.symm hij]

/-- Witness for C9 (amended), second conjunct: the clean two-row
duplicate-id scenario — one retained record (the first) and one logged
warning. -/
theorem load_topics_dedup_witness :
    loadTopics [⟨some 5, "xx", "yy", []⟩, ⟨some 5, "zz", "ww", []⟩] =
      ⟨[⟨5, cleanText "xx", cleanText "yy",
          buildMatchText (cleanText "xx") (cleanText "yy") []⟩], 1, 0⟩ :=
  load_topics_dedup.2.1 ⟨some 5, "xx", "yy", []⟩ ⟨some 5, "zz", "ww", []⟩ 5
    rfl rfl (by decide) (by decide)

/-- C9 counterexample: rows 2 and 3 are otherwise valid and share id 2;
row 2 is dropped silently by the pair rule, which does not reserve its id,
so the **later** occurrence (row 3) is retained for id 2 and **no**
duplicate-id warning is logged — the first occurrence does not win. -/
theorem load_topics_first_wins_counterexample :
    loadTopics [⟨some 1, "aa", "bb", []⟩, ⟨some 2, "aa", "bb", []⟩, ⟨some 2, "cc", "dd", []⟩] =
      ⟨[⟨1, "aa", "bb", "aa bb"⟩, ⟨2, "cc", "dd", "cc dd"⟩], 0, 0⟩ ∧
    (0 : ℕ) ≠ 1 :=
  ⟨rfl, by decide⟩

end WhatsappDemo
